import Mathlib

/-!
Verification of the file-butler HTTP facade: a shallow embedding of the
server package (handlers, registry, middleware) together with theorems
settling the specification claims.

Conventions of the embedding:
* Go byte slices and request bodies are modelled as Lean `String`s; lengths
  are character counts (all concrete inputs are ASCII).
* Go maps built by insertion are modelled as association lists in insertion
  order; `map[k]v` assignment on a fresh key appends, deletion filters.
* Fallible Go functions returning `(T, error)` become `Except Lerr T`.
* The pseudo-random number `rand.Intn(1000000)` of the redaction middleware
  is passed in as an explicit `Nat` argument.
-/

namespace FileButler

/-- Coded error of package `lerr` (src/lerr/lerror.go): an HTTP status code
together with a message, as built by `lerr.New` / `lerr.Newf` / `lerr.Wrap`. -/
structure Lerr where
  code : Nat
  msg : String
deriving DecidableEq

/-- Splitting a character list at every `:`, the semantics of Go
`strings.Split(tag, ":")` for the one-character separator: the empty string
splits to `[""]`, and `n` colons produce `n+1` parts. -/
def splitOnColon : List Char → List (List Char)
  | [] => [[]]
  | c :: rest =>
    let r := splitOnColon rest
    if c = ':' then [] :: r
    else
      match r with
      | h :: tl => (c :: h) :: tl
      | [] => [[c]]

/-- Go `strings.Split(t, ":")` (src/server/handlers.go:154). -/
def splitTag (t : String) : List String :=
  (splitOnColon t.data).map (fun cs => ⟨cs⟩)

/-- Loop body of `parseTags` (src/server/handlers.go:147-171): each raw tag is
split on `:`; a shape other than exactly two non-empty parts is
`invalid tag format`; a key already present in the accumulated map is
`multiple values for key <k>, this is not supported`; otherwise the pair is
inserted. -/
def parseTagsLoop : List String → List (String × String) → Except Lerr (List (String × String))
  | [], acc => .ok acc
  | t :: rest, acc =>
    match splitTag t with
    | [k, v] =>
      if k = "" ∨ v = "" then .error ⟨400, "invalid tag format"⟩
      else if (acc.lookup k).isSome then
        .error ⟨400, "multiple values for key " ++ k ++ ", this is not supported"⟩
      else parseTagsLoop rest (acc ++ [(k, v)])
    | _ => .error ⟨400, "invalid tag format"⟩

/-- Function `parseTags` (src/server/handlers.go:147-171). An empty list of `tag` query
parameters returns the `nil` map (modelled as `none`) and no error; otherwise
the parsed map is returned. -/
def parseTags (rawTags : List String) : Except Lerr (Option (List (String × String))) :=
  if rawTags = [] then .ok none
  else (parseTagsLoop rawTags []).map (fun m => some m)

/-- The `(name, value)` pair read off a raw tag string, defined for tags that
split into exactly two parts. -/
def tagKV (t : String) : String × String :=
  match splitTag t with
  | [k, v] => (k, v)
  | _ => ("", "")

/-- A raw tag string is well formed when it has exactly one colon and both
sides are non-empty, the shape `parseTags` accepts. -/
def tagWfB (t : String) : Bool :=
  match splitTag t with
  | [k, v] => !(k = "" || v = "")
  | _ => false

/-- One operation a handler performs on its `http.ResponseWriter`:
mutating the header map (`Header().Set`, `Header().Del`), writing the status
line, or writing body bytes. Handlers are embedded as the sequence of writer
operations they emit. -/
inductive WOp where
  | setHeader (k v : String)
  | delHeader (k : String)
  | writeHeader (code : Nat)
  | write (s : String)
deriving DecidableEq

/-- Semantics of `http.Header.Set`: replace any existing value of the key. Header maps are
association lists whose keys are unique by construction. -/
def headerSet (hs : List (String × String)) (k v : String) : List (String × String) :=
  hs.filter (fun kv => kv.1 ≠ k) ++ [(k, v)]

/-- Semantics of `http.Header.Del`. -/
def headerDel (hs : List (String × String)) (k : String) : List (String × String) :=
  hs.filter (fun kv => kv.1 ≠ k)

/-- State of the `httptest.ResponseRecorder` the redaction middleware hands to
the inner handler: `Code` starts at 200; `WriteHeader` records the first code
only; `Write` marks the header as written and appends to the buffered body;
the header map stays live (mutable) throughout. -/
structure Recorder where
  code : Nat
  wroteHeader : Bool
  headers : List (String × String)
  body : String
deriving DecidableEq

def Recorder.init : Recorder := ⟨200, false, [], ""⟩

/-- One writer operation applied to the recorder, following
`httptest.ResponseRecorder` semantics. -/
def recStep (w : Recorder) : WOp → Recorder
  | .setHeader k v => { w with headers := headerSet w.headers k v }
  | .delHeader k => { w with headers := headerDel w.headers k }
  | .writeHeader c => if w.wroteHeader then w else { w with code := c, wroteHeader := true }
  | .write s => { w with wroteHeader := true, body := w.body ++ s }

def runRecorder (ops : List WOp) : Recorder := ops.foldl recStep Recorder.init

/-- The response the client finally receives: status line, the headers that
were on the wire when the status line was sent, and the body. -/
structure ClientResponse where
  status : Nat
  headers : List (String × String)
  body : String
deriving DecidableEq

/-- A plain (unbuffered) `http.ResponseWriter`: the first `WriteHeader` or
`Write` sends the status line together with a snapshot of the header map;
later header mutations never reach the client. -/
structure DirectWriter where
  headers : List (String × String)
  sentStatus : Option Nat
  sentHeaders : List (String × String)
  body : String

def dwStep (w : DirectWriter) : WOp → DirectWriter
  | .setHeader k v => { w with headers := headerSet w.headers k v }
  | .delHeader k => { w with headers := headerDel w.headers k }
  | .writeHeader c =>
    match w.sentStatus with
    | some _ => w
    | none => { w with sentStatus := some c, sentHeaders := w.headers }
  | .write s =>
    match w.sentStatus with
    | some _ => { w with body := w.body ++ s }
    | none => { w with sentStatus := some 200, sentHeaders := w.headers, body := w.body ++ s }

/-- Run a handler directly against a plain response writer (no middleware). -/
def runDirect (ops : List WOp) : ClientResponse :=
  let w := ops.foldl dwStep ⟨[], none, [], ""⟩
  ⟨w.sentStatus.getD 200, w.sentHeaders, w.body⟩

/-- Function `copyHeaders` (src/server/middlewares.go:59-63): `dst[k] = v` for every
entry of `src`. -/
def copyHeaders (dst src : List (String × String)) : List (String × String) :=
  src.foldl (fun acc kv => headerSet acc kv.1 kv.2) dst

/-- Middleware `InternalErrorRedacter` (src/server/middlewares.go:13-35) applied to the
inner handler response it buffered. On a 500 it copies the recorded headers,
writes 500 and replaces the body with `internal error, id: <responseId>` where
`responseId = rand.Intn(1000000)`; any other response is copied through. -/
def InternalErrorRedacter (rec : Recorder) (responseId : Nat) : ClientResponse :=
  if rec.code = 500 then
    ⟨500, copyHeaders [] rec.headers, "internal error, id: " ++ toString responseId⟩
  else
    ⟨rec.code, copyHeaders [] rec.headers, rec.body⟩

/-- The deployed stack (src/server/server.go:75): the inner handler runs
against a fresh recorder and the redaction middleware forwards the buffered
response to the client. -/
def pipelineResponse (ops : List WOp) (responseId : Nat) : ClientResponse :=
  InternalErrorRedacter (runRecorder ops) responseId

/-- Behavior of `http.Error` of the Go standard library: sets the plain-text content type
and nosniff headers, deletes any Content-Length, writes the code, then writes
the message followed by a newline. -/
def httpErrorOps (msg : String) (code : Nat) : List WOp :=
  [.setHeader "Content-Type" "text/plain; charset=utf-8",
   .setHeader "X-Content-Type-Options" "nosniff",
   .delHeader "Content-Length",
   .writeHeader code,
   .write (msg ++ "\n")]

/-- Function `lerr.ToHTTP` (src/lerr/http.go): sets the plain-text content type and
nosniff headers, writes the coded status, then `Fprintln`s the message. -/
def lerrToHTTPOps (e : Lerr) : List WOp :=
  [.setHeader "Content-Type" "text/plain; charset=utf-8",
   .setHeader "X-Content-Type-Options" "nosniff",
   .writeHeader e.code,
   .write (e.msg ++ "\n")]

/-- Failure of a plugin `Authorize` RPC as seen by the middleware: either a
gRPC status (carrying `codes.Code` and message, the case where
`status.FromError` reports `ok`) or an error that is not a gRPC status. -/
inductive AuthorizeErr where
  | grpcStatus (code : Nat) (msg : String)
  | nonStatus (msg : String)
deriving DecidableEq

/-- Constant `google.golang.org/grpc/codes.Unauthenticated`. -/
def codeUnauthenticated : Nat := 16

/-- Constant `google.golang.org/grpc/codes.PermissionDenied`. -/
def codePermissionDenied : Nat := 7

/-- An authorization plugin (package `authorization/plugin`): its unique name
and — as the embedding of the per-request RPC — the outcome its `Authorize`
method returns for the request under consideration (`none` is success). -/
structure Plugin where
  name : String
  authorize : Option AuthorizeErr
deriving DecidableEq

/-- Structure `provider.GetOptions` (src/provider/provider.go:59-63): the optional
If-Modified-Since timestamp, times modelled as `Nat`. -/
structure GetOptions where
  lastModified : Option Nat
deriving DecidableEq

/-- Structure `provider.ObjectInfo` (src/provider/provider.go:77-86). -/
structure ObjectInfo where
  lastModified : Option Nat
  contentLength : Option Int
  contentType : Option String
deriving DecidableEq

/-- One read from the object stream returned by `GetObject`: either a block of
bytes handed to `io.Copy` or a mid-stream read error. -/
inductive Chunk where
  | bytes (s : String)
  | ioError (msg : String)
deriving DecidableEq

/-- Result of `provider.GetObject` for the request under consideration:
the data stream with its `ObjectInfo`, or one of the sentinel errors
`ErrNotFound`, `ErrDenied`, `ErrNotModified` (src/provider/provider.go:10-17),
or an opaque failure. -/
inductive GetResult where
  | success (data : List Chunk) (info : ObjectInfo)
  | notFound
  | denied
  | notModified
  | failure (msg : String)
deriving DecidableEq

/-- Enumeration `provider.PresignOperation` (src/provider/provider.go:93-98). -/
inductive PresignOp where
  | download
  | upload
deriving DecidableEq

/-- Failure of `Presigner.PresignURL`: the sentinels `ErrDenied` and
`ErrNoPresign` or an opaque error. -/
inductive PresignErr where
  | denied
  | noPresign
  | other (msg : String)
deriving DecidableEq

/-- A registered provider (interface `provider.Provider`,
src/provider/provider.go:46-57): identity, optional auth-plugin name, and the
behaviors of its operations for the request under consideration. A provider
implements the optional `Presigner` interface exactly when `presign` is
`some`. -/
structure Provider where
  id : String
  authPlugin : String
  get : GetOptions → GetResult
  presign : Option (PresignOp → Except PresignErr String)
  list : String → Except String (List String)

/-- The server state (src/server/server.go:83-93): configuration, the fixed
plugin list, and the provider registry (a map modelled as an association list
keyed by provider id). -/
structure ServerState where
  allowRawBody : Bool
  defaultAuthPlugin : String
  plugins : List Plugin
  providers : List (String × Provider)

/-- Method `Server.setPlugin` (src/server/server.go:108-116): linear scan of the
plugin list for the first name match. -/
def setPlugin (s : ServerState) (name : String) : Option Plugin :=
  s.plugins.find? (fun p => p.name == name)

/-- Method `Server.getProvider` (src/server/server.go:170-179): registry lookup,
`none` when absent. -/
def getProvider (s : ServerState) (id : String) : Option Provider :=
  s.providers.lookup id

/-- Method `Server.RegisterProvider` (src/server/server.go:118-147). The argument is
`Option Provider` so that the Go `nil` provider is representable. Every error
path leaves the registry unchanged. -/
def RegisterProvider (s : ServerState) (p : Option Provider) :
    Except String Unit × ServerState :=
  match p with
  | none => (.error "provider is nil or has no ID", s)
  | some p =>
    if p.id = "" then (.error "provider is nil or has no ID", s)
    else if p.authPlugin ≠ "" ∧ (setPlugin s p.authPlugin).isNone then
      (.error ("auth plugin " ++ p.authPlugin ++ " not found for provider " ++ p.id), s)
    else if (s.providers.lookup p.id).isSome then
      (.error "provider already registered", s)
    else
      (.ok (), { s with providers := s.providers ++ [(p.id, p)] })

/-- Method `Server.RemoveProvider` (src/server/server.go:149-156): unconditional map
delete. -/
def RemoveProvider (s : ServerState) (id : String) : ServerState :=
  { s with providers := s.providers.filter (fun kv => kv.1 ≠ id) }

/-- Method `Server.ProviderIds` (src/server/server.go:158-168): the `Id()` of every
registered provider value. -/
def ProviderIds (s : ServerState) : List String :=
  s.providers.map (fun kv => kv.2.id)

/-- Structure `server.Config` (src/server/server.go:16-26). -/
structure Config where
  addr : String
  allowRawBody : Bool
  defaultAuthPlugin : String
deriving DecidableEq

/-- Function `defaultAuthPluginExists` (src/server/server.go:28-36). -/
def defaultAuthPluginExists (plugins : List Plugin) (d : String) : Bool :=
  plugins.any (fun p => p.name == d)

/-- Loop of `validateUniquePluginNames` (src/server/server.go:95-106),
carrying the set of names seen so far. -/
def validateUniquePluginNamesLoop : List Plugin → List String → Except String Unit
  | [], _ => .ok ()
  | p :: rest, seen =>
    if p.name ∈ seen then
      .error ("plugin names must be unique, found duplicate: " ++ p.name)
    else validateUniquePluginNamesLoop rest (seen ++ [p.name])

/-- Function `validateUniquePluginNames` (src/server/server.go:95-106). -/
def validateUniquePluginNames (plugins : List Plugin) : Except String Unit :=
  validateUniquePluginNamesLoop plugins []

/-- Constructor `NewServer` (src/server/server.go:40-81): the validation chain followed by
construction of the server state with an empty registry. -/
def NewServer (cfg : Config) (plugins : List Plugin) : Except String ServerState :=
  if cfg.addr = "" then .error "address is required"
  else if plugins.isEmpty then .error "at least one auth plugin is required"
  else if cfg.defaultAuthPlugin = "" then .error "default auth plugin is required"
  else if ¬ defaultAuthPluginExists plugins cfg.defaultAuthPlugin then
    .error "default auth plugin not found"
  else
    match validateUniquePluginNames plugins with
    | .error e => .error e
    | .ok _ => .ok ⟨cfg.allowRawBody, cfg.defaultAuthPlugin, plugins, []⟩

/-- Method `Server.authorizeRequest` (src/server/handlers.go:234-278): resolve the
plugin (the name the provider specifies, else the default), call `Authorize`, and map
the outcome — non-status errors and unknown plugins to 500, `Unauthenticated`
to 401, `PermissionDenied` to 403, any other status to 500. `none` means the
request may proceed. -/
def authorizeRequest (s : ServerState) (p : Provider) : Option Lerr :=
  let authPluginName := if p.authPlugin = "" then s.defaultAuthPlugin else p.authPlugin
  match setPlugin s authPluginName with
  | none => some ⟨500, "no auth plugin found for provider " ++ p.id⟩
  | some plg =>
    match plg.authorize with
    | none => none
    | some (.nonStatus m) =>
      some ⟨500, "plugin error not a grpc status! error=" ++ m⟩
    | some (.grpcStatus c m) =>
      if c = codeUnauthenticated then some ⟨401, "Unauthenticated: " ++ m⟩
      else if c = codePermissionDenied then some ⟨403, "permission denied: " ++ m⟩
      else some ⟨500, "plugin error: " ++ m⟩

/-- Error type of `handleDownload`: a coded error rendered by `lerr.ToHTTP`,
or the raw `ErrNotModified` sentinel that `handleFile` turns into a 304. -/
inductive DownloadErr where
  | coded (e : Lerr)
  | notModified
deriving DecidableEq

/-- Mapping of the `GetObject` outcome inside `handleDownload`
(src/server/handlers.go:216-231): `ErrNotFound` to 404, `ErrDenied` to 403,
`ErrNotModified` passed through raw, anything else to 500 with a wrapped
message; the sentinel messages are the `errors.New` texts of
src/provider/provider.go:10-17. -/
def handleDownloadCall : GetResult → Except DownloadErr (List Chunk × ObjectInfo)
  | .success d i => .ok (d, i)
  | .notFound => .error (.coded ⟨404, "resource not found"⟩)
  | .denied => .error (.coded ⟨403, "access denied"⟩)
  | .notModified => .error .notModified
  | .failure m => .error (.coded ⟨500, "error getting object from provider: " ++ m⟩)

/-- Method `Server.handleDownload` (src/server/handlers.go:204-232). `parseTime`
stands for the library function `http.ParseTime` (`none` on a malformed
date); `ims` is the If-Modified-Since header value, `""` when absent. -/
def handleDownload (parseTime : String → Option Nat) (get : GetOptions → GetResult)
    (ims : String) : Except DownloadErr (List Chunk × ObjectInfo) :=
  if ims = "" then handleDownloadCall (get ⟨none⟩)
  else
    match parseTime ims with
    | none => .error (.coded ⟨400, "invalid If-Modified-Since header"⟩)
    | some t => handleDownloadCall (get ⟨some t⟩)

/-- Loop `io.Copy(w, data)` followed by the error branch of
src/server/handlers.go:79-82: each non-empty read is written to the response;
the first read error stops the copy and is passed to `http.Error` with
status 500. -/
def ioCopyOps : List Chunk → List WOp
  | [] => []
  | .bytes s :: rest => (if s = "" then [] else [WOp.write s]) ++ ioCopyOps rest
  | .ioError m :: _ => httpErrorOps m 500

/-- The headers of the download success path (src/server/handlers.go:67-77):
each of Last-Modified, Content-Length and Content-Type appears exactly when
the corresponding `ObjectInfo` field is non-nil. `formatTime` stands for
formatting with `http.TimeFormat`. -/
def objectInfoPairs (formatTime : Nat → String) (info : ObjectInfo) :
    List (String × String) :=
  (match info.lastModified with
   | some t => [("Last-Modified", formatTime t)]
   | none => []) ++
  (match info.contentLength with
   | some n => [("Content-Length", toString n)]
   | none => []) ++
  (match info.contentType with
   | some ct => [("Content-Type", ct)]
   | none => [])

/-- The `Header().Set` calls of the download success path, one per present
`ObjectInfo` field. -/
def objectInfoHeaderOps (formatTime : Nat → String) (info : ObjectInfo) : List WOp :=
  (objectInfoPairs formatTime info).map (fun kv => WOp.setHeader kv.1 kv.2)

/-- The download branch of `Server.handleFile` (src/server/handlers.go:54-85)
after authorization: 304 on the `ErrNotModified` sentinel, `lerr.ToHTTP` on a
coded error, and on success the `ObjectInfo` headers followed by the streamed
body. -/
def handleFileDownloadOps (parseTime : String → Option Nat) (formatTime : Nat → String)
    (get : GetOptions → GetResult) (ims : String) : List WOp :=
  match handleDownload parseTime get ims with
  | .error .notModified => [WOp.writeHeader 304]
  | .error (.coded e) => lerrToHTTPOps e
  | .ok (data, info) => objectInfoHeaderOps formatTime info ++ ioCopyOps data

/-- GET handling of `Server.handleFile` for a resolved provider
(src/server/handlers.go:49-85): authorize, then download. The Bool records
whether the provider was called. -/
def handleFileGet (parseTime : String → Option Nat) (formatTime : Nat → String)
    (s : ServerState) (p : Provider) (ims : String) : List WOp × Bool :=
  match authorizeRequest s p with
  | some e => (lerrToHTTPOps e, false)
  | none => (handleFileDownloadOps parseTime formatTime p.get ims, true)

/-- Substring test on character lists, the semantics of Go
`strings.Contains`. -/
def charListContains (sub : List Char) : List Char → Bool
  | [] => sub.isEmpty
  | c :: rest => sub.isPrefixOf (c :: rest) || charListContains sub rest

/-- Go `strings.Contains s sub`. -/
def strContains (s sub : String) : Bool :=
  charListContains sub.data s.data

/-- An upload request as `handleUpload` sees it: the transport-level
Content-Length (`-1` when unknown), the raw body bytes, the Content-Type
header (`""` when absent), the `file` part extracted by
`ParseMultipartForm`/`FormFile` (`none` when multipart parsing or part lookup
fails), and the `tag` query parameters. -/
structure UploadRequest where
  contentLength : Int
  rawBody : String
  contentTypeHeader : String
  multipartFile : Option String
  tagParams : List String
deriving DecidableEq

/-- Function `getDataSource` (src/server/handlers.go:173-202): a Content-Type
containing `multipart/form-data` selects the `file` form part (either 400 of
the multipart branch is collapsed into one message here); otherwise the raw
body is used, but only when `allowRawBody` is set, else 415. -/
def getDataSource (r : UploadRequest) (allowRawBody : Bool) : Except Lerr String :=
  if strContains r.contentTypeHeader "multipart/form-data" then
    match r.multipartFile with
    | some f => .ok f
    | none => .error ⟨400, "error getting file from form:"⟩
  else if allowRawBody = false then
    .error ⟨415, "raw body uploads are not allowed, use multipart form data"⟩
  else .ok r.rawBody

/-- The arguments of the `PutObject` call issued by `handleUpload`
(src/server/handlers.go:132-136). -/
structure PutCall where
  key : String
  contentType : String
  contentLength : Int
  data : String
  tags : Option (List (String × String))
deriving DecidableEq

/-- Value of `http.DetectContentType(nil)`, the default when the client sent no
Content-Type (src/server/handlers.go:127-130). -/
def detectContentTypeEmpty : String := "text/plain; charset=utf-8"

/-- Method `Server.handleUpload` (src/server/handlers.go:95-145) up to the provider
call: data source selection, the zero/unknown Content-Length handling (the
`allowUnknownContentLength` constant is true, so an unknown length is
resolved by `io.ReadAll` of the data source), tag parsing, and the
Content-Type default. The result is the `PutCall` handed to the provider. -/
def handleUploadCore (allowRawBody : Bool) (r : UploadRequest) (key : String) :
    Except Lerr PutCall :=
  match getDataSource r allowRawBody with
  | .error e => .error e
  | .ok dataSrc =>
    if r.contentLength = 0 then .error ⟨400, "no content to upload"⟩
    else
      let contentLength : Int :=
        if r.contentLength < 0 then (dataSrc.length : Int) else r.contentLength
      match parseTags r.tagParams with
      | .error e => .error e
      | .ok tags =>
        let contentType :=
          if r.contentTypeHeader = "" then detectContentTypeEmpty else r.contentTypeHeader
        .ok ⟨key, contentType, contentLength, dataSrc, tags⟩

/-- Outcome of the provider `PutObject` call for the request under
consideration. -/
inductive PutOutcome where
  | ok
  | denied
  | failure (msg : String)
deriving DecidableEq

/-- The PUT/POST branch of `Server.handleFile` (src/server/handlers.go:87-93)
together with the provider-error mapping of handleUpload
(src/server/handlers.go:132-144): errors through `lerr.ToHTTP`, success a bare
200. The Bool records whether `PutObject` was called. -/
def handleFilePutOps (allowRawBody : Bool) (r : UploadRequest) (key : String)
    (put : PutCall → PutOutcome) : List WOp × Bool :=
  match handleUploadCore allowRawBody r key with
  | .error e => (lerrToHTTPOps e, false)
  | .ok pc =>
    match put pc with
    | .ok => ([WOp.writeHeader 200], true)
    | .denied => (lerrToHTTPOps ⟨403, "error uploading object: access denied"⟩, true)
    | .failure m => (lerrToHTTPOps ⟨500, m⟩, true)

/-- Every upload path that reaches `PutObject` has fully consumed the request
body: `ParseMultipartForm` drains it to parse the form, and in raw mode the
body is either drained by `io.ReadAll` (unknown length) or consumed in full by
the provider. The bytes read from the request body of a completed upload are
therefore the whole raw body. -/
def bytesReadFromRequestBody (r : UploadRequest) : Nat := r.rawBody.length

/-- The message of `provider.ErrNoPresign` (src/provider/provider.go:13). -/
def errNoPresignMsg : String := "presigning is not allowed for this provider"

/-- Method `Server.handlePresign` (src/server/handlers.go:280-342) after the
authorization and presign call, for a provider that implements `Presigner`:
the `PresignURL` error mapping and the success write of the URL. -/
def handlePresignCallOps (s : ServerState) (p : Provider)
    (presignURL : PresignOp → Except PresignErr String) (pop : PresignOp) : List WOp :=
  match authorizeRequest s p with
  | some e => lerrToHTTPOps e
  | none =>
    match presignURL pop with
    | .error .denied => httpErrorOps "access denied" 403
    | .error .noPresign => httpErrorOps errNoPresignMsg 404
    | .error (.other m) => httpErrorOps m 500
    | .ok url => [WOp.write url]

/-- Method `Server.handlePresign` (src/server/handlers.go:280-342): provider lookup,
the `Presigner` capability check (404 with the `ErrNoPresign` message when the
provider does not implement it), key and `op` validation, then the presign
call. -/
def handlePresignOps (s : ServerState) (p : Option Provider) (key op : String) : List WOp :=
  match p with
  | none => httpErrorOps "provider not found" 404
  | some p =>
    match p.presign with
    | none => httpErrorOps errNoPresignMsg 404
    | some presignURL =>
      if key = "" then httpErrorOps "key is required" 400
      else if op = "" then httpErrorOps "presign operation is required" 400
      else if op = "download" then handlePresignCallOps s p presignURL .download
      else if op = "upload" then handlePresignCallOps s p presignURL .upload
      else httpErrorOps ("unsupported presign operation: " ++ op) 400

/-- JSON string literal; escaping is not modelled (all concrete keys are
escape-free). -/
def jsonString (s : String) : String := "\"" ++ s ++ "\""

/-- Encoding `json.NewEncoder(w).Encode` of a `provider.ListObjectsResponse`
(src/provider/provider.go:88-91): the struct has the single field `Keys`
without a json tag, a nil slice marshals as `null`, and the encoder appends a
newline. -/
def jsonEncodeListResponse (keys : List String) : String :=
  "\x7b\"Keys\":" ++
    (if keys.isEmpty then "null"
     else "[" ++ String.intercalate "," (keys.map jsonString) ++ "]") ++
    "\x7d\n"

/-- Method `Server.handleList` (src/server/handlers.go:428-456): provider lookup,
authorization, `ListObjects`, then — in this order — `WriteHeader(200)`, the
`Content-Type: application/json` header set, and the JSON body write. -/
def handleListOps (s : ServerState) (p : Option Provider) (pfx : String) : List WOp :=
  match p with
  | none => httpErrorOps "provider not found" 404
  | some p =>
    match authorizeRequest s p with
    | some e => lerrToHTTPOps e
    | none =>
      match p.list pfx with
      | .error m => httpErrorOps m 500
      | .ok keys =>
        [WOp.writeHeader 200,
         WOp.setHeader "Content-Type" "application/json",
         WOp.write (jsonEncodeListResponse keys)]

/-- A handler registered on the mux. -/
inductive HandlerId where
  | file
  | presign
deriving DecidableEq

/-- A mux registration: the method constraint of the pattern (`none` when the
pattern names no method) and the path pattern. -/
structure Route where
  method : Option String
  pattern : String
  handler : HandlerId
deriving DecidableEq

/-- The mux registrations performed by `NewServer`
(src/server/server.go:68-71): `mux.HandleFunc("/{provider}/", s.handleFile)`
and `mux.HandleFunc("GET /presign/{provider}/{key}", s.handlePresign)`. -/
def serverRoutes : List Route :=
  [⟨none, "/{provider}/", .file⟩,
   ⟨some "GET", "/presign/{provider}/{key}", .presign⟩]

theorem lookup_eq_none_iff {β : Type} (l : List (String × β)) (k : String) :
    l.lookup k = none ↔ k ∉ l.map Prod.fst := by
  induction l with
  | nil => simp [List.lookup]
  | cons kv rest ih =>
    obtain ⟨k2, v⟩ := kv
    by_cases h : k = k2
    · subst h
      simp [List.lookup]
    · have hb : (k == k2) = false := beq_eq_false_iff_ne.mpr h
      simp [List.lookup, hb, ih, h]

theorem lookup_isSome_iff {β : Type} (l : List (String × β)) (k : String) :
    (l.lookup k).isSome = true ↔ k ∈ l.map Prod.fst := by
  constructor
  · intro h
    by_contra hmem
    rw [← lookup_eq_none_iff] at hmem
    rw [hmem] at h
    simp at h
  · intro h
    cases hl : l.lookup k with
    | some v => simp
    | none => exact absurd ((lookup_eq_none_iff l k).mp hl) (by simp [h])

theorem tagWfB_iff (t : String) :
    tagWfB t = true ↔ ∃ k v, splitTag t = [k, v] ∧ k ≠ "" ∧ v ≠ "" := by
  unfold tagWfB
  rcases splitTag t with _ | ⟨k, _ | ⟨v, _ | ⟨a, tl⟩⟩⟩
  · simp
  · simp
  · constructor
    · intro h
      simp at h
      exact ⟨k, v, rfl, h.1, h.2⟩
    · rintro ⟨k2, v2, heq, h1, h2⟩
      simp only [List.cons.injEq, and_true] at heq
      obtain ⟨e1, e2⟩ := heq
      subst e1
      subst e2
      simp [h1, h2]
  · simp

theorem tagKV_eq {t k v : String} (h : splitTag t = [k, v]) : tagKV t = (k, v) := by
  simp [tagKV, h]

theorem parseTagsLoop_append (pre l : List String) (acc : List (String × String))
    (hwf : ∀ t ∈ pre, tagWfB t = true)
    (hnodup : (pre.map fun t => (tagKV t).1).Nodup)
    (hfresh : ∀ t ∈ pre, (tagKV t).1 ∉ acc.map Prod.fst) :
    parseTagsLoop (pre ++ l) acc = parseTagsLoop l (acc ++ pre.map tagKV) := by
  induction pre generalizing acc with
  | nil => simp
  | cons t rest ih =>
    obtain ⟨k, v, hsp, hk, hv⟩ := (tagWfB_iff t).mp (hwf t (by simp))
    have hkv : tagKV t = (k, v) := tagKV_eq hsp
    have hlk : acc.lookup k = none := by
      rw [lookup_eq_none_iff]
      have := hfresh t (by simp)
      rwa [hkv] at this
    rw [List.cons_append, parseTagsLoop, hsp]
    simp only [hk, hv, false_or, if_false, hlk, Option.isSome_none, Bool.false_eq_true]
    rw [ih (acc ++ [(k, v)])
      (fun u hu => hwf u (by simp [hu]))
      ((by simpa [hkv] using hnodup : ((tagKV t).1 :: rest.map fun u => (tagKV u).1).Nodup).of_cons)
      ?_]
    · simp [hkv, List.append_assoc]
    · intro u hu
      have h1 : (tagKV u).1 ∉ acc.map Prod.fst := hfresh u (by simp [hu])
      have h2 : (tagKV u).1 ≠ k := by
        have hnd := hnodup
        rw [List.map_cons, hkv, List.nodup_cons] at hnd
        intro he
        exact hnd.1 (by rw [← he]; exact List.mem_map_of_mem _ hu)
      simp [h1, h2]

theorem parseTagsLoop_nil (acc : List (String × String)) :
    parseTagsLoop [] acc = .ok acc := rfl

/-- C3: for tag query parameters each holding exactly one colon with non-empty
name and value and pairwise distinct names, `parseTags` returns exactly the
name-to-value mapping (in order); a tag repeating an earlier name fails with
400 `multiple values for key <k>, this is not supported`; a tag not of that
shape fails with 400 `invalid tag format`; and the empty tag list yields no
error (the nil mapping). -/
theorem parseTags_C3 :
    (∀ raw : List String, raw ≠ [] → (∀ t ∈ raw, tagWfB t = true) →
       (raw.map fun t => (tagKV t).1).Nodup →
       parseTags raw = .ok (some (raw.map tagKV))) ∧
    (parseTags [] = .ok none) ∧
    (∀ pre t rest, (∀ u ∈ pre, tagWfB u = true) →
       ((pre.map fun u => (tagKV u).1).Nodup) → tagWfB t = true →
       (tagKV t).1 ∈ pre.map (fun u => (tagKV u).1) →
       parseTags (pre ++ t :: rest) =
         .error ⟨400, "multiple values for key " ++ (tagKV t).1 ++ ", this is not supported"⟩) ∧
    (∀ pre t rest, (∀ u ∈ pre, tagWfB u = true) →
       ((pre.map fun u => (tagKV u).1).Nodup) → tagWfB t = false →
       parseTags (pre ++ t :: rest) = .error ⟨400, "invalid tag format"⟩) := by
  have hloop : ∀ (pre : List String) (l : List String),
      (∀ u ∈ pre, tagWfB u = true) → ((pre.map fun u => (tagKV u).1).Nodup) →
      parseTagsLoop (pre ++ l) [] = parseTagsLoop l (pre.map tagKV) := by
    intro pre l hwf hnd
    have := parseTagsLoop_append pre l [] hwf hnd (by simp)
    simpa using this
  refine ⟨?_, rfl, ?_, ?_⟩
  · intro raw hne hwf hnd
    have h1 : parseTagsLoop (raw ++ []) [] = parseTagsLoop [] (raw.map tagKV) :=
      hloop raw [] hwf hnd
    rw [List.append_nil] at h1
    unfold parseTags
    rw [if_neg hne, h1, parseTagsLoop_nil]
    rfl
  · intro pre t rest hwf hnd hwt hmem
    obtain ⟨k, v, hsp, hk, hv⟩ := (tagWfB_iff t).mp hwt
    have hkv : tagKV t = (k, v) := tagKV_eq hsp
    have hsome : ((pre.map tagKV).lookup k).isSome = true := by
      rw [lookup_isSome_iff, List.map_map]
      rw [hkv] at hmem
      simpa using hmem
    unfold parseTags
    rw [if_neg (by simp), hloop pre (t :: rest) hwf hnd]
    simp only [parseTagsLoop, hsp]
    rw [if_neg (by simp [hk, hv]), if_pos hsome, hkv]
    rfl
  · intro pre t rest hwf hnd hwt
    unfold parseTags
    rw [if_neg (by simp), hloop pre (t :: rest) hwf hnd]
    simp only [parseTagsLoop]
    unfold tagWfB at hwt
    rcases hsp : splitTag t with _ | ⟨k, _ | ⟨v, _ | ⟨a, tl⟩⟩⟩ <;>
      rw [hsp] at hwt <;> simp only [hsp]
    · rfl
    · rfl
    · have h2 : ¬k = "" → v = "" := by simpa using hwt
      rw [if_pos (or_iff_not_imp_left.mpr h2)]
      rfl
    · rfl

/-- Witness for C3 at concrete inputs: two distinct well-formed tags parse to
their mapping, a repeated name and a colon-free tag produce the two 400
errors, and the empty list parses to the nil mapping. -/
theorem parseTags_C3_witness :
    parseTags ["a:1", "b:2"] = .ok (some [("a", "1"), ("b", "2")]) ∧
    parseTags ["a:1", "a:2"] =
      .error ⟨400, "multiple values for key a, this is not supported"⟩ ∧
    parseTags ["a1"] = .error ⟨400, "invalid tag format"⟩ ∧
    parseTags [] = .ok none :=
  ⟨parseTags_C3.1 ["a:1", "b:2"] (by decide) (by decide) (by decide),
   parseTags_C3.2.2.1 ["a:1"] "a:2" [] (by decide) (by decide) (by decide) (by decide),
   parseTags_C3.2.2.2 [] "a1" [] (by decide) (by decide) (by decide),
   parseTags_C3.2.1⟩

theorem providers_keys_of_remove (s : ServerState) (i : String) :
    i ∉ (RemoveProvider s i).providers.map Prod.fst := by
  intro hmem
  obtain ⟨kv, hkv, hfst⟩ := List.mem_map.mp hmem
  have h2 := List.mem_filter.mp hkv
  have : kv.1 ≠ i := by simpa using h2.2
  exact this hfst

/-- C2: registering an id already present fails with the distinct error
`provider already registered` and leaves the registry unchanged; after a
successful registration the id is enumerated and looked up non-nil; after a
removal neither holds; removal is idempotent; and registering again after
removing the same id succeeds. The hypothesis `hwf` states that every registry
entry is keyed by the id of its provider, which holds for every state reachable
through `RegisterProvider`/`RemoveProvider`. -/
theorem registry_C2 (s : ServerState) (p : Provider) (i : String)
    (hwf : ∀ kv ∈ s.providers, kv.2.id = kv.1) :
    (p.id ≠ "" → (p.authPlugin = "" ∨ (setPlugin s p.authPlugin).isSome) →
       (getProvider s p.id).isSome →
       RegisterProvider s (some p) = (.error "provider already registered", s)) ∧
    (∀ s2 u, RegisterProvider s (some p) = (.ok u, s2) →
       p.id ∈ ProviderIds s2 ∧ (getProvider s2 p.id).isSome) ∧
    (i ∉ ProviderIds (RemoveProvider s i) ∧ getProvider (RemoveProvider s i) i = none) ∧
    (RemoveProvider (RemoveProvider s i) i = RemoveProvider s i) ∧
    (p.id ≠ "" → (p.authPlugin = "" ∨ (setPlugin s p.authPlugin).isSome) →
       ∃ s2, RegisterProvider (RemoveProvider s p.id) (some p) = (.ok (), s2)) := by
  have hnap : (p.authPlugin = "" ∨ (setPlugin s p.authPlugin).isSome) →
      ¬(p.authPlugin ≠ "" ∧ (setPlugin s p.authPlugin).isNone = true) := by
    rintro (h | h) ⟨hne, hnone⟩
    · exact hne h
    · rw [Option.isNone_iff_eq_none] at hnone
      rw [hnone] at h
      simp at h
  refine ⟨?_, ?_, ⟨?_, ?_⟩, ?_, ?_⟩
  · intro hid hap hreg
    simp only [RegisterProvider]
    rw [if_neg hid, if_neg (hnap hap)]
    unfold getProvider at hreg
    rw [if_pos hreg]
  · intro s2 u hok
    simp only [RegisterProvider] at hok
    by_cases h1 : p.id = ""
    · rw [if_pos h1] at hok
      exact absurd (congrArg Prod.fst hok) (by simp)
    rw [if_neg h1] at hok
    by_cases h2 : p.authPlugin ≠ "" ∧ (setPlugin s p.authPlugin).isNone = true
    · rw [if_pos h2] at hok
      exact absurd (congrArg Prod.fst hok) (by simp)
    rw [if_neg h2] at hok
    by_cases h3 : (s.providers.lookup p.id).isSome = true
    · rw [if_pos h3] at hok
      exact absurd (congrArg Prod.fst hok) (by simp)
    rw [if_neg h3] at hok
    have hs2 : s2 = { s with providers := s.providers ++ [(p.id, p)] } :=
      (congrArg Prod.snd hok).symm
    subst hs2
    constructor
    · unfold ProviderIds
      simp
    · unfold getProvider
      rw [lookup_isSome_iff]
      simp
  · intro hmem
    unfold ProviderIds at hmem
    obtain ⟨kv, hkv, hfst⟩ := List.mem_map.mp hmem
    have h2 := List.mem_filter.mp hkv
    have hne : kv.1 ≠ i := by simpa using h2.2
    exact hne ((hwf kv h2.1).symm.trans hfst)
  · unfold getProvider
    rw [lookup_eq_none_iff]
    exact providers_keys_of_remove s i
  · unfold RemoveProvider
    simp [List.filter_filter]
  · intro hid hap
    have hplug : setPlugin (RemoveProvider s p.id) p.authPlugin
        = setPlugin s p.authPlugin := rfl
    have hlook : (RemoveProvider s p.id).providers.lookup p.id = none := by
      rw [lookup_eq_none_iff]
      exact providers_keys_of_remove s p.id
    refine ⟨{ RemoveProvider s p.id with
      providers := (RemoveProvider s p.id).providers ++ [(p.id, p)] }, ?_⟩
    simp only [RegisterProvider]
    rw [hplug, if_neg hid, if_neg (hnap hap), if_neg (by simp [hlook])]

/-- A concrete provider used by witnesses (the void provider of the test
suite: no presign capability, default auth plugin). -/
def exProvider : Provider :=
  ⟨"void", "", fun _ => .notFound, none, fun _ => .ok []⟩

/-- A concrete plugin whose `Authorize` allows the request. -/
def exPlugin : Plugin := ⟨"default", none⟩

/-- A concrete server state with one plugin and one registered provider. -/
def exState : ServerState := ⟨false, "default", [exPlugin], [("void", exProvider)]⟩

/-- Witness for C2: at the concrete one-provider state, re-registering the
same id fails with the distinct error and removal delists the id. -/
theorem registry_C2_witness :
    (RegisterProvider exState (some exProvider)).1 = .error "provider already registered" ∧
    "void" ∉ ProviderIds (RemoveProvider exState "void") := by
  have h := registry_C2 exState exProvider "void" (by decide)
  exact ⟨congrArg Prod.fst (h.1 (by decide) (Or.inl rfl) (by decide)), h.2.2.1.1⟩

theorem validateLoop_ok_iff (plugins : List Plugin) (seen : List String) :
    (∃ u, validateUniquePluginNamesLoop plugins seen = .ok u) ↔
      ((plugins.map Plugin.name).Nodup ∧ ∀ n ∈ plugins.map Plugin.name, n ∉ seen) := by
  induction plugins generalizing seen with
  | nil => simp [validateUniquePluginNamesLoop]
  | cons p rest ih =>
    simp only [validateUniquePluginNamesLoop]
    by_cases h : p.name ∈ seen
    · rw [if_pos h]
      constructor
      · rintro ⟨u, hu⟩
        exact absurd hu (by simp)
      · rintro ⟨hnd, hall⟩
        exact absurd h (hall p.name (by simp))
    · rw [if_neg h, ih]
      constructor
      · rintro ⟨hnd, hall⟩
        refine ⟨List.nodup_cons.mpr ⟨?_, hnd⟩, ?_⟩
        · intro hmem
          exact (hall _ hmem) (by simp)
        · intro n hn
          rcases List.mem_cons.mp hn with he | ht
          · subst he
            exact h
          · intro hs
            exact (hall n ht) (by simp [hs])
      · rintro ⟨hnd, hall⟩
        have hcons := List.nodup_cons.mp hnd
        refine ⟨hcons.2, ?_⟩
        intro n hn hs
        rcases List.mem_append.mp hs with h1 | h1
        · exact (hall n (List.mem_cons_of_mem _ hn)) h1
        · have he : n = p.name := by simpa using h1
          exact hcons.1 (he ▸ hn)

theorem defaultAuthPluginExists_iff (plugins : List Plugin) (d : String) :
    defaultAuthPluginExists plugins d = true ↔ d ∈ plugins.map Plugin.name := by
  unfold defaultAuthPluginExists
  rw [List.any_eq_true]
  constructor
  · rintro ⟨p, hp, he⟩
    rw [beq_iff_eq] at he
    exact List.mem_map.mpr ⟨p, hp, he⟩
  · intro hm
    obtain ⟨p, hp, he⟩ := List.mem_map.mp hm
    exact ⟨p, hp, beq_iff_eq.mpr he⟩

theorem except_error_of_not_ok {α β : Type} (x : Except α β)
    (h : ∀ s, x ≠ .ok s) : ∃ e, x = .error e := by
  cases x with
  | error e => exact ⟨e, rfl⟩
  | ok s => exact absurd rfl (h s)

theorem NewServer_ok_iff (cfg : Config) (plugins : List Plugin) :
    (∃ s, NewServer cfg plugins = .ok s) ↔
      (cfg.addr ≠ "" ∧ cfg.defaultAuthPlugin ≠ "" ∧ plugins ≠ [] ∧
       cfg.defaultAuthPlugin ∈ plugins.map Plugin.name ∧
       (plugins.map Plugin.name).Nodup) := by
  unfold NewServer
  by_cases h1 : cfg.addr = ""
  · rw [if_pos h1]
    simp [h1]
  rw [if_neg h1]
  by_cases h2 : plugins.isEmpty = true
  · rw [if_pos h2]
    simp only [List.isEmpty_iff] at h2
    simp [h1, h2]
  rw [if_neg h2]
  simp only [List.isEmpty_iff] at h2
  by_cases h3 : cfg.defaultAuthPlugin = ""
  · rw [if_pos h3]
    simp [h3]
  rw [if_neg h3]
  by_cases h4 : defaultAuthPluginExists plugins cfg.defaultAuthPlugin = true
  · rw [if_neg (by simp [h4])]
    rw [defaultAuthPluginExists_iff] at h4
    cases hv : validateUniquePluginNames plugins with
    | error e =>
      have hnnd : ¬ (plugins.map Plugin.name).Nodup := by
        intro hnd
        obtain ⟨u, hu⟩ := (validateLoop_ok_iff plugins []).mpr ⟨hnd, by simp⟩
        rw [validateUniquePluginNames] at hv
        rw [hu] at hv
        exact absurd hv (by simp)
      simp [h1, h2, h3, h4, hnnd]
    | ok u =>
      have hnd : (plugins.map Plugin.name).Nodup :=
        ((validateLoop_ok_iff plugins []).mp ⟨u, hv⟩).1
      simp [h1, h2, h3, h4, hnd]
  · rw [if_pos (by simp [h4])]
    rw [defaultAuthPluginExists_iff] at h4
    simp [h4]

/-- C9: `NewServer` fails on any duplicate plugin name; succeeds whenever the
names are distinct and include the configured default plugin (with a
non-empty bind address and default name); and fails when the bind address is
empty, the plugin list is empty, the default plugin name is empty, or the
default plugin is absent from the list. -/
theorem newServer_C9 (cfg : Config) (plugins : List Plugin) :
    (¬ (plugins.map Plugin.name).Nodup → ∃ e, NewServer cfg plugins = .error e) ∧
    (cfg.addr ≠ "" → cfg.defaultAuthPlugin ≠ "" →
      (plugins.map Plugin.name).Nodup → cfg.defaultAuthPlugin ∈ plugins.map Plugin.name →
      ∃ s, NewServer cfg plugins = .ok s) ∧
    (cfg.addr = "" → NewServer cfg plugins = .error "address is required") ∧
    (plugins = [] → ∃ e, NewServer cfg plugins = .error e) ∧
    (cfg.defaultAuthPlugin = "" → ∃ e, NewServer cfg plugins = .error e) ∧
    (cfg.defaultAuthPlugin ∉ plugins.map Plugin.name →
      ∃ e, NewServer cfg plugins = .error e) := by
  refine ⟨?_, ?_, ?_, ?_, ?_, ?_⟩
  · intro hnnd
    refine except_error_of_not_ok _ (fun s hs => ?_)
    exact hnnd ((NewServer_ok_iff cfg plugins).mp ⟨s, hs⟩).2.2.2.2
  · intro h1 h2 hnd hmem
    exact (NewServer_ok_iff cfg plugins).mpr
      ⟨h1, h2, by rintro rfl; simp at hmem, hmem, hnd⟩
  · intro h1
    unfold NewServer
    rw [if_pos h1]
  · intro he
    refine except_error_of_not_ok _ (fun s hs => ?_)
    exact ((NewServer_ok_iff cfg plugins).mp ⟨s, hs⟩).2.2.1 he
  · intro he
    refine except_error_of_not_ok _ (fun s hs => ?_)
    exact ((NewServer_ok_iff cfg plugins).mp ⟨s, hs⟩).2.1 he
  · intro he
    refine except_error_of_not_ok _ (fun s hs => ?_)
    exact he ((NewServer_ok_iff cfg plugins).mp ⟨s, hs⟩).2.2.2.1

/-- Witness for C9 at concrete inputs: a duplicate-name list fails, and the
one-plugin configuration of the test suite succeeds. -/
theorem newServer_C9_witness :
    (∃ e, NewServer ⟨"localhost:8080", false, "default"⟩ [⟨"default", none⟩, ⟨"default", none⟩]
        = .error e) ∧
    (∃ s, NewServer ⟨"localhost:8080", false, "default"⟩ [⟨"default", none⟩] = .ok s) ∧
    NewServer ⟨"", false, "default"⟩ [⟨"default", none⟩] = .error "address is required" :=
  ⟨(newServer_C9 ⟨"localhost:8080", false, "default"⟩ _).1 (by decide),
   (newServer_C9 ⟨"localhost:8080", false, "default"⟩ _).2.1 (by decide) (by decide)
     (by decide) (by decide),
   (newServer_C9 ⟨"", false, "default"⟩ _).2.2.1 rfl⟩

theorem headerSet_keys_nodup (hs : List (String × String)) (k v : String)
    (h : (hs.map Prod.fst).Nodup) : ((headerSet hs k v).map Prod.fst).Nodup := by
  unfold headerSet
  rw [List.map_append, List.nodup_append]
  refine ⟨List.Nodup.sublist ((List.filter_sublist hs).map Prod.fst) h, by simp, ?_⟩
  intro a ha
  obtain ⟨kv, hkv, hfst⟩ := List.mem_map.mp ha
  have h2 := List.mem_filter.mp hkv
  have hne : kv.1 ≠ k := by simpa using h2.2
  simp only [List.map_cons, List.map_nil, List.mem_singleton]
  exact fun he => hne (hfst.trans he)

theorem copyHeaders_fresh (hs : List (String × String)) :
    ∀ acc, (hs.map Prod.fst).Nodup →
    (∀ n ∈ hs.map Prod.fst, n ∉ acc.map Prod.fst) →
    copyHeaders acc hs = acc ++ hs := by
  induction hs with
  | nil => simp [copyHeaders]
  | cons kv rest ih =>
    intro acc hnd hdisj
    obtain ⟨k, v⟩ := kv
    rw [List.map_cons] at hnd
    have hcons := List.nodup_cons.mp hnd
    have hk : k ∉ acc.map Prod.fst := hdisj k (by simp)
    have hset : headerSet acc k v = acc ++ [(k, v)] := by
      unfold headerSet
      rw [List.filter_eq_self.mpr ?_]
      intro a ha
      rw [decide_eq_true_eq]
      intro heq
      exact hk (List.mem_map.mpr ⟨a, ha, heq⟩)
    have hstep : copyHeaders acc ((k, v) :: rest) = copyHeaders (acc ++ [(k, v)]) rest := by
      unfold copyHeaders
      rw [List.foldl_cons, hset]
    rw [hstep, ih (acc ++ [(k, v)]) hcons.2 ?_]
    · simp
    · intro n hn
      have hn2 : n ∉ acc.map Prod.fst := hdisj n (by simp [hn])
      have hne : n ≠ k := fun he => hcons.1 (he ▸ hn)
      simp [hn2, hne]

theorem foldl_recStep_headers_nodup (ops : List WOp) :
    ∀ w : Recorder, (w.headers.map Prod.fst).Nodup →
    (((ops.foldl recStep w).headers).map Prod.fst).Nodup := by
  induction ops with
  | nil => intro w h; simpa using h
  | cons op rest ih =>
    intro w h
    rw [List.foldl_cons]
    apply ih
    cases op with
    | setHeader k v => exact headerSet_keys_nodup _ _ _ h
    | delHeader k =>
      exact List.Nodup.sublist ((List.filter_sublist _).map Prod.fst) h
    | writeHeader c =>
      by_cases hw : w.wroteHeader <;> simp [recStep, hw, h]
    | write s => simpa [recStep] using h

theorem runRecorder_headers_nodup (ops : List WOp) :
    (((runRecorder ops).headers).map Prod.fst).Nodup :=
  foldl_recStep_headers_nodup ops Recorder.init (by simp [Recorder.init])

theorem copyHeaders_nil_self (hs : List (String × String))
    (hnd : (hs.map Prod.fst).Nodup) : copyHeaders [] hs = hs := by
  simpa using copyHeaders_fresh hs [] hnd (by simp)

/-- C8: for any inner handler run buffered by the redaction middleware with a
pseudo-random id below one million, a 500 response has its body replaced by
`internal error, id: <id>` with the inner headers copied verbatim and 500
written, while any other status passes status, headers and body through
unchanged. -/
theorem redacter_C8 (ops : List WOp) (id : Nat) (_hid : id < 1000000) :
    ((runRecorder ops).code = 500 →
      pipelineResponse ops id =
        ⟨500, (runRecorder ops).headers, "internal error, id: " ++ toString id⟩) ∧
    ((runRecorder ops).code ≠ 500 →
      pipelineResponse ops id =
        ⟨(runRecorder ops).code, (runRecorder ops).headers, (runRecorder ops).body⟩) := by
  have hch : copyHeaders [] (runRecorder ops).headers = (runRecorder ops).headers :=
    copyHeaders_nil_self _ (runRecorder_headers_nodup ops)
  constructor
  · intro h500
    unfold pipelineResponse InternalErrorRedacter
    rw [if_pos h500, hch]
  · intro hn
    unfold pipelineResponse InternalErrorRedacter
    rw [if_neg hn, hch]

/-- Witness for C8: a concrete 500 handler is redacted, and a concrete 204
handler passes through unchanged. -/
theorem redacter_C8_witness :
    pipelineResponse [WOp.setHeader "X-Test" "y", WOp.writeHeader 500, WOp.write "secret"]
        123456 = ⟨500, [("X-Test", "y")], "internal error, id: 123456"⟩ ∧
    pipelineResponse [WOp.writeHeader 204] 123456 = ⟨204, [], ""⟩ := by
  constructor
  · exact ((redacter_C8 [WOp.setHeader "X-Test" "y", WOp.writeHeader 500, WOp.write "secret"]
      123456 (by decide)).1 (by decide)).trans (by decide)
  · exact ((redacter_C8 [WOp.writeHeader 204] 123456 (by decide)).2 (by decide)).trans
      (by decide)

/-- The two headers `http.Error` and `lerr.ToHTTP` set on every error
response. -/
def errorHeaders : List (String × String) :=
  [("Content-Type", "text/plain; charset=utf-8"),
   ("X-Content-Type-Options", "nosniff")]

theorem runRecorder_lerr (e : Lerr) :
    runRecorder (lerrToHTTPOps e) = ⟨e.code, true, errorHeaders, e.msg ++ "\n"⟩ := by
  simp only [runRecorder, lerrToHTTPOps, List.foldl_cons, List.foldl_nil, recStep,
    headerSet, headerDel, Recorder.init, errorHeaders]
  simp

theorem runRecorder_httpError (msg : String) (code : Nat) :
    runRecorder (httpErrorOps msg code) = ⟨code, true, errorHeaders, msg ++ "\n"⟩ := by
  simp only [runRecorder, httpErrorOps, List.foldl_cons, List.foldl_nil, recStep,
    headerSet, headerDel, Recorder.init, errorHeaders]
  simp

theorem pipeline_lerr (e : Lerr) (rid : Nat) (hne : e.code ≠ 500) :
    pipelineResponse (lerrToHTTPOps e) rid = ⟨e.code, errorHeaders, e.msg ++ "\n"⟩ := by
  unfold pipelineResponse
  rw [runRecorder_lerr]
  unfold InternalErrorRedacter
  rw [if_neg hne]
  rw [copyHeaders_nil_self _ (by simp [errorHeaders])]

theorem pipeline_lerr_500 (e : Lerr) (rid : Nat) (h5 : e.code = 500) :
    (pipelineResponse (lerrToHTTPOps e) rid).status = 500 := by
  unfold pipelineResponse
  rw [runRecorder_lerr]
  unfold InternalErrorRedacter
  rw [if_pos h5]

theorem pipeline_httpError (msg : String) (code : Nat) (rid : Nat) (hne : code ≠ 500) :
    pipelineResponse (httpErrorOps msg code) rid = ⟨code, errorHeaders, msg ++ "\n"⟩ := by
  unfold pipelineResponse
  rw [runRecorder_httpError]
  unfold InternalErrorRedacter
  rw [if_neg hne]
  rw [copyHeaders_nil_self _ (by simp [errorHeaders])]

/-- C1: with the governing plugin resolved, the middleware maps the plugin
outcome exactly as: success lets the handler proceed to the provider call;
an error with gRPC status `Unauthenticated` yields 401 with body
`Unauthenticated: <msg>`; status `PermissionDenied` yields 403 with body
`permission denied: <msg>`; a non-status error or any other status yields
500 — and in every failure case the provider is not called. -/
theorem authorize_C1 (parseTime : String → Option Nat) (formatTime : Nat → String)
    (s : ServerState) (p : Provider) (ims m : String) (rid : Nat) (plg : Plugin)
    (hres : setPlugin s (if p.authPlugin = "" then s.defaultAuthPlugin else p.authPlugin)
      = some plg) :
    (plg.authorize = none →
      authorizeRequest s p = none ∧
      (handleFileGet parseTime formatTime s p ims).2 = true) ∧
    (plg.authorize = some (.grpcStatus codeUnauthenticated m) →
      (handleFileGet parseTime formatTime s p ims).2 = false ∧
      pipelineResponse (handleFileGet parseTime formatTime s p ims).1 rid =
        ⟨401, errorHeaders, "Unauthenticated: " ++ m ++ "\n"⟩) ∧
    (plg.authorize = some (.grpcStatus codePermissionDenied m) →
      (handleFileGet parseTime formatTime s p ims).2 = false ∧
      pipelineResponse (handleFileGet parseTime formatTime s p ims).1 rid =
        ⟨403, errorHeaders, "permission denied: " ++ m ++ "\n"⟩) ∧
    (plg.authorize = some (.nonStatus m) →
      (handleFileGet parseTime formatTime s p ims).2 = false ∧
      (pipelineResponse (handleFileGet parseTime formatTime s p ims).1 rid).status = 500) ∧
    (∀ c, c ≠ codeUnauthenticated → c ≠ codePermissionDenied →
      plg.authorize = some (.grpcStatus c m) →
      (handleFileGet parseTime formatTime s p ims).2 = false ∧
      (pipelineResponse (handleFileGet parseTime formatTime s p ims).1 rid).status = 500) := by
  have hauth : authorizeRequest s p =
      match plg.authorize with
      | none => none
      | some (.nonStatus m2) =>
        some ⟨500, "plugin error not a grpc status! error=" ++ m2⟩
      | some (.grpcStatus c m2) =>
        if c = codeUnauthenticated then some ⟨401, "Unauthenticated: " ++ m2⟩
        else if c = codePermissionDenied then some ⟨403, "permission denied: " ++ m2⟩
        else some ⟨500, "plugin error: " ++ m2⟩ := by
    simp only [authorizeRequest]
    rw [hres]
  refine ⟨?_, ?_, ?_, ?_, ?_⟩
  · intro hok
    have ha : authorizeRequest s p = none := by rw [hauth, hok]
    exact ⟨ha, by unfold handleFileGet; rw [ha]⟩
  · intro hu
    have ha : authorizeRequest s p = some ⟨401, "Unauthenticated: " ++ m⟩ := by
      rw [hauth, hu]
      simp
    unfold handleFileGet
    rw [ha]
    refine ⟨rfl, ?_⟩
    rw [pipeline_lerr _ _ (by simp)]
  · intro hd
    have ha : authorizeRequest s p = some ⟨403, "permission denied: " ++ m⟩ := by
      rw [hauth, hd]
      simp [codeUnauthenticated, codePermissionDenied]
    unfold handleFileGet
    rw [ha]
    refine ⟨rfl, ?_⟩
    rw [pipeline_lerr _ _ (by simp)]
  · intro hn
    have ha : authorizeRequest s p =
        some ⟨500, "plugin error not a grpc status! error=" ++ m⟩ := by
      rw [hauth, hn]
    unfold handleFileGet
    rw [ha]
    exact ⟨rfl, pipeline_lerr_500 _ _ rfl⟩
  · intro c hc1 hc2 ho
    have ha : authorizeRequest s p = some ⟨500, "plugin error: " ++ m⟩ := by
      rw [hauth, ho]
      simp [hc1, hc2]
    unfold handleFileGet
    rw [ha]
    exact ⟨rfl, pipeline_lerr_500 _ _ rfl⟩

/-- Witness for C1 at the concrete one-plugin state: a permission-denied
status maps to 403 with the exact body, and a successful authorization lets
the provider be called. -/
theorem authorize_C1_witness :
    (handleFileGet (fun _ => none) (fun _ => "") exState exProvider "").2 = true ∧
    pipelineResponse
        (handleFileGet (fun _ => none) (fun _ => "")
          ⟨false, "default", [⟨"default", some (.grpcStatus 7 "nope")⟩], []⟩
          exProvider "").1 0 =
      ⟨403, errorHeaders, "permission denied: " ++ "nope" ++ "\n"⟩ := by
  constructor
  · exact ((authorize_C1 (fun _ => none) (fun _ => "") exState exProvider "" "" 0 exPlugin
      rfl).1 rfl).2
  · exact ((authorize_C1 (fun _ => none) (fun _ => "")
      ⟨false, "default", [⟨"default", some (.grpcStatus 7 "nope")⟩], []⟩
      exProvider "" "nope" 0 ⟨"default", some (.grpcStatus 7 "nope")⟩ rfl).2.2.1 rfl).2

theorem handleUploadCore_ok_shape (ab : Bool) (r : UploadRequest) (key : String)
    (pc : PutCall) (hok : handleUploadCore ab r key = .ok pc) :
    ∃ d tags, getDataSource r ab = .ok d ∧ r.contentLength ≠ 0 ∧
      parseTags r.tagParams = .ok tags ∧
      pc = ⟨key,
        (if r.contentTypeHeader = "" then detectContentTypeEmpty else r.contentTypeHeader),
        (if r.contentLength < 0 then (d.length : Int) else r.contentLength), d, tags⟩ := by
  cases hds : getDataSource r ab with
  | error e =>
    simp only [handleUploadCore, hds] at hok
    exact absurd hok (by simp)
  | ok d =>
    by_cases h0 : r.contentLength = 0
    · simp only [handleUploadCore, hds, if_pos h0] at hok
      exact absurd hok (by simp)
    cases hpt : parseTags r.tagParams with
    | error e =>
      simp only [handleUploadCore, hds, if_neg h0, hpt] at hok
      exact absurd hok (by simp)
    | ok tags =>
      simp only [handleUploadCore, hds, if_neg h0, hpt, Except.ok.injEq] at hok
      exact ⟨d, tags, rfl, h0, rfl, hok.symm⟩

theorem getDataSource_raw (r : UploadRequest) (ab : Bool)
    (hct : strContains r.contentTypeHeader "multipart/form-data" = false) :
    getDataSource r ab =
      if ab = false then
        .error ⟨415, "raw body uploads are not allowed, use multipart form data"⟩
      else .ok r.rawBody := by
  unfold getDataSource
  rw [if_neg (by simp [hct])]

/-- C7: with `AllowRawBody=false`, an upload whose Content-Type does not carry
`multipart/form-data` is rejected with 415 and the exact sentinel body, and
`PutObject` is never called. -/
theorem rawBody_C7 (r : UploadRequest) (key : String) (put : PutCall → PutOutcome)
    (rid : Nat)
    (hct : strContains r.contentTypeHeader "multipart/form-data" = false) :
    (handleFilePutOps false r key put).2 = false ∧
    pipelineResponse (handleFilePutOps false r key put).1 rid =
      ⟨415, errorHeaders,
        "raw body uploads are not allowed, use multipart form data" ++ "\n"⟩ := by
  have hds : getDataSource r false =
      .error ⟨415, "raw body uploads are not allowed, use multipart form data"⟩ := by
    rw [getDataSource_raw r false hct]
    simp
  have hcore : handleUploadCore false r key =
      .error ⟨415, "raw body uploads are not allowed, use multipart form data"⟩ := by
    unfold handleUploadCore
    rw [hds]
  have hops : handleFilePutOps false r key put =
      (lerrToHTTPOps ⟨415, "raw body uploads are not allowed, use multipart form data"⟩,
        false) := by
    unfold handleFilePutOps
    rw [hcore]
  rw [hops]
  exact ⟨rfl, pipeline_lerr _ _ (by simp)⟩

/-- Witness for C7: a concrete raw-body PUT of `hello` with raw bodies
disallowed is a 415 with the sentinel body, without a provider call. -/
theorem rawBody_C7_witness :
    (handleFilePutOps false ⟨5, "hello", "", none, []⟩ "k" (fun _ => .ok)).2 = false ∧
    pipelineResponse (handleFilePutOps false ⟨5, "hello", "", none, []⟩ "k"
        (fun _ => .ok)).1 0 =
      ⟨415, errorHeaders,
        "raw body uploads are not allowed, use multipart form data" ++ "\n"⟩ :=
  rawBody_C7 ⟨5, "hello", "", none, []⟩ "k" (fun _ => .ok) 0 (by decide)

/-- A minimal multipart/form-data body with the given boundary whose single
part is named `file` and carries `content`: what a client sends for the
multipart upload path. The framing makes the body strictly longer than the
part. -/
def mkMultipartBody (boundary content : String) : String :=
  "--" ++ boundary ++ "\r\n" ++
  "Content-Disposition: form-data; name=\"file\"; filename=\"f\"" ++ "\r\n\r\n" ++
  content ++ "\r\n--" ++ boundary ++ "--\r\n"

/-- A multipart upload request with unknown Content-Length (`-1`, e.g. a
chunked request): the raw body is the multipart encoding of the 5-byte part
`hello`, and multipart parsing extracts that part. -/
def c4Request : UploadRequest :=
  ⟨-1, mkMultipartBody "b1" "hello", "multipart/form-data; boundary=b1",
    some "hello", []⟩

/-- Counterexample to C4 as stated: for a multipart upload with unknown
Content-Length, the upload succeeds and passes ContentLength 5 (the extracted
`file` part) to `PutObject`, while the number of bytes actually read from the
request body is the length of the whole multipart body (93), so the two are
not equal. -/
theorem upload_C4_counterexample :
    handleUploadCore true c4Request "k" =
      .ok ⟨"k", "multipart/form-data; boundary=b1", 5, "hello", none⟩ ∧
    bytesReadFromRequestBody c4Request = 82 ∧
    (5 : Int) ≠ (bytesReadFromRequestBody c4Request : Int) := by
  refine ⟨rfl, by decide, by decide⟩

/-- C4 as amended: a Content-Length of 0 (with a resolvable data source) fails
with 400 `no content to upload`; an unknown Content-Length (-1) is resolved by
draining the data source, so the ContentLength passed to `PutObject` equals
the length of the drained data; and in every successful upload that is either
raw-bodied or has a known Content-Length, the ContentLength passed to
`PutObject` equals the number of bytes read from the request body — for a
multipart upload with unknown length it is the length of the extracted part
instead. The hypothesis `hlen` is the HTTP-transport guarantee that a known
Content-Length equals the delivered body length. -/
theorem upload_C4 (ab : Bool) (r : UploadRequest) (key : String) (pc : PutCall)
    (hlen : 0 ≤ r.contentLength → r.contentLength = (r.rawBody.length : Int)) :
    ((∃ d, getDataSource r ab = .ok d) → r.contentLength = 0 →
        handleUploadCore ab r key = .error ⟨400, "no content to upload"⟩) ∧
    (handleUploadCore ab r key = .ok pc → r.contentLength < 0 →
        pc.contentLength = (pc.data.length : Int)) ∧
    (handleUploadCore ab r key = .ok pc →
        (strContains r.contentTypeHeader "multipart/form-data" = false ∨
          0 ≤ r.contentLength) →
        pc.contentLength = (bytesReadFromRequestBody r : Int)) := by
  refine ⟨?_, ?_, ?_⟩
  · rintro ⟨d, hd⟩ h0
    simp only [handleUploadCore, hd, if_pos h0]
  · intro hok hneg
    obtain ⟨d, tags, hds, h0, hpt, hpc⟩ := handleUploadCore_ok_shape ab r key pc hok
    subst hpc
    simp [hneg]
  · intro hok hor
    obtain ⟨d, tags, hds, h0, hpt, hpc⟩ := handleUploadCore_ok_shape ab r key pc hok
    subst hpc
    rcases hor with hraw | hpos
    · rw [getDataSource_raw r ab hraw] at hds
      by_cases hab : ab = false
      · rw [if_pos hab] at hds
        exact absurd hds (by simp)
      · rw [if_neg hab] at hds
        have hd : d = r.rawBody := (Except.ok.inj hds).symm
        subst hd
        by_cases hneg : r.contentLength < 0
        · simp [hneg, bytesReadFromRequestBody]
        · have hge : 0 ≤ r.contentLength := by omega
          simp only [if_neg hneg]
          simpa [bytesReadFromRequestBody] using hlen hge
    · have hneg : ¬ r.contentLength < 0 := by omega
      simp only [if_neg hneg]
      simpa [bytesReadFromRequestBody] using hlen hpos

/-- Witness for C4 (amended): a concrete raw PUT with Content-Length 0 is the
400, and with unknown length the provider receives length 5 for body
`hello`. -/
theorem upload_C4_witness :
    handleUploadCore true ⟨0, "", "", none, []⟩ "k" =
      .error ⟨400, "no content to upload"⟩ ∧
    (⟨"k", detectContentTypeEmpty, 5, "hello", none⟩ : PutCall).contentLength =
      (bytesReadFromRequestBody ⟨-1, "hello", "", none, []⟩ : Int) := by
  constructor
  · exact (upload_C4 true ⟨0, "", "", none, []⟩ "k"
      ⟨"", "", 0, "", none⟩ (by intro h; decide)).1 ⟨"", rfl⟩ rfl
  · exact (upload_C4 true ⟨-1, "hello", "", none, []⟩ "k"
      ⟨"k", detectContentTypeEmpty, 5, "hello", none⟩
      (by intro h; exact absurd h (by decide))).2.2 rfl (Or.inl (by decide))

/-- Counterexample to C6 as stated: the presign route is registered with
method GET, not POST, and the sentinel body for a provider without the
pre-sign capability is `presigning is not allowed for this provider` (plus
the `http.Error` newline), not `presign not allowed for this provider`. -/
theorem presign_C6_counterexample :
    serverRoutes.filter (fun rt => rt.handler == HandlerId.presign) =
      [⟨some "GET", "/presign/{provider}/{key}", .presign⟩] ∧
    (some "GET" : Option String) ≠ some "POST" ∧
    pipelineResponse (handlePresignOps exState (some exProvider) "k" "download") 0 =
      ⟨404, errorHeaders, "presigning is not allowed for this provider" ++ "\n"⟩ ∧
    "presigning is not allowed for this provider" ++ "\n"
      ≠ "presign not allowed for this provider" ++ "\n" := by
  refine ⟨by decide, by decide, ?_, by decide⟩
  have hops : handlePresignOps exState (some exProvider) "k" "download" =
      httpErrorOps errNoPresignMsg 404 := rfl
  rw [hops, pipeline_httpError _ _ _ (by decide)]
  rfl

/-- C6 as amended: the pre-sign handler is registered only under method GET;
with the capability present and a non-empty key, an `op` that is absent or not
one of `download`/`upload` yields 400; and a provider without the pre-sign
capability yields 404 with body `presigning is not allowed for this
provider`. -/
theorem presign_C6 (s : ServerState) (p : Provider) (key op : String) (rid : Nat) :
    (∀ rt ∈ serverRoutes, rt.handler = .presign → rt.method = some "GET") ∧
    (p.presign = none →
      pipelineResponse (handlePresignOps s (some p) key op) rid =
        ⟨404, errorHeaders, errNoPresignMsg ++ "\n"⟩) ∧
    (∀ f, p.presign = some f → key ≠ "" → op ≠ "download" → op ≠ "upload" →
      (pipelineResponse (handlePresignOps s (some p) key op) rid).status = 400) := by
  refine ⟨?_, ?_, ?_⟩
  · intro rt hrt hh
    rcases (by simpa [serverRoutes] using hrt :
        rt = (⟨none, "/{provider}/", .file⟩ : Route) ∨
        rt = (⟨some "GET", "/presign/{provider}/{key}", .presign⟩ : Route)) with h | h
    · rw [h] at hh
      exact absurd hh (by decide)
    · rw [h]
  · intro hp
    have hops : handlePresignOps s (some p) key op = httpErrorOps errNoPresignMsg 404 := by
      simp only [handlePresignOps, hp]
    rw [hops, pipeline_httpError _ _ _ (by decide)]
  · intro f hp hk hdl hup
    have hops : handlePresignOps s (some p) key op =
        if op = "" then httpErrorOps "presign operation is required" 400
        else httpErrorOps ("unsupported presign operation: " ++ op) 400 := by
      simp only [handlePresignOps, hp]
      rw [if_neg hk]
      by_cases h0 : op = ""
      · rw [if_pos h0, if_pos h0]
      · rw [if_neg h0, if_neg h0, if_neg hdl, if_neg hup]
    by_cases h0 : op = ""
    · rw [hops, if_pos h0, pipeline_httpError _ _ _ (by decide)]
    · rw [hops, if_neg h0, pipeline_httpError _ _ _ (by decide)]

/-- A concrete provider implementing the pre-sign capability. -/
def exPresignProvider : Provider :=
  ⟨"s3", "", fun _ => .notFound, some (fun _ => .ok "https://signed.example"),
    fun _ => .ok []⟩

/-- Witness for C6 (amended): the no-capability 404 with the exact sentinel
body at a concrete provider, and a concrete invalid `op` yielding 400. -/
theorem presign_C6_witness :
    pipelineResponse (handlePresignOps exState (some exProvider) "k" "upload") 0 =
      ⟨404, errorHeaders, errNoPresignMsg ++ "\n"⟩ ∧
    (pipelineResponse (handlePresignOps exState (some exPresignProvider) "k" "delete") 0).status
      = 400 := by
  constructor
  · exact (presign_C6 exState exProvider "k" "upload" 0).2.1 rfl
  · exact (presign_C6 exState exPresignProvider "k" "delete" 0).2.2
      (fun _ => .ok "https://signed.example") rfl (by decide) (by decide) (by decide)

/-- Counterexample to C10 as stated: a successful list request through the
deployed middleware stack is sent with the `Content-Type: application/json`
header — the redaction middleware copies the live header map of the recorder after
the handler returns, so the header set after `WriteHeader(200)` still reaches
the client. -/
theorem list_C10_counterexample :
    pipelineResponse (handleListOps exState (some exProvider) "") 0 =
      ⟨200, [("Content-Type", "application/json")], "\x7b\"Keys\":null\x7d\n"⟩ ∧
    ("Content-Type", "application/json")
      ∈ (pipelineResponse (handleListOps exState (some exProvider) "") 0).headers := by
  refine ⟨by decide, by decide⟩

/-- C10 as amended: `handleList` writes the 200 status before setting the
`Content-Type: application/json` header, so against a plain response writer
the header would be dropped from the sent snapshot; but the deployed server
buffers every handler under the redaction middleware, which copies the
live header map of the recorder after the handler returns, so the response
actually sent carries the JSON content-type header. -/
theorem list_C10 (s : ServerState) (p : Provider) (pfx : String) (keys : List String)
    (rid : Nat) (hauth : authorizeRequest s p = none) (hlist : p.list pfx = .ok keys) :
    runDirect (handleListOps s (some p) pfx) =
      ⟨200, [], jsonEncodeListResponse keys⟩ ∧
    pipelineResponse (handleListOps s (some p) pfx) rid =
      ⟨200, [("Content-Type", "application/json")], jsonEncodeListResponse keys⟩ := by
  have hops : handleListOps s (some p) pfx =
      [WOp.writeHeader 200, WOp.setHeader "Content-Type" "application/json",
       WOp.write (jsonEncodeListResponse keys)] := by
    simp only [handleListOps, hauth, hlist]
  rw [hops]
  constructor
  · simp [runDirect, dwStep, headerSet]
  · simp [pipelineResponse, runRecorder, recStep, headerSet, InternalErrorRedacter,
      copyHeaders, Recorder.init]

/-- Witness for C10 (amended) at the concrete one-provider state. -/
theorem list_C10_witness :
    runDirect (handleListOps exState (some exProvider) "") =
      ⟨200, [], jsonEncodeListResponse []⟩ ∧
    pipelineResponse (handleListOps exState (some exProvider) "") 7 =
      ⟨200, [("Content-Type", "application/json")], jsonEncodeListResponse []⟩ :=
  list_C10 exState exProvider "" [] 7 rfl rfl

/-- The bytes `io.Copy` delivers from a stream before hitting an error (the
whole stream when it is error-free). -/
def chunksBody : List Chunk → String
  | [] => ""
  | .bytes s :: rest => s ++ chunksBody rest
  | .ioError _ :: _ => ""

theorem foldl_recStep_setHeader_pairs (prs : List (String × String)) (w : Recorder) :
    ((prs.map fun kv => WOp.setHeader kv.1 kv.2).foldl recStep w) =
      { w with headers := copyHeaders w.headers prs } := by
  induction prs generalizing w with
  | nil => rfl
  | cons kv rest ih =>
    rw [List.map_cons, List.foldl_cons]
    rw [ih]
    rfl

theorem foldl_recStep_clean_writes (data : List Chunk)
    (hclean : ∀ ch ∈ data, ∃ s, ch = Chunk.bytes s) (w : Recorder) :
    ((ioCopyOps data).foldl recStep w).code = w.code ∧
    ((ioCopyOps data).foldl recStep w).headers = w.headers ∧
    ((ioCopyOps data).foldl recStep w).body = w.body ++ chunksBody data := by
  induction data generalizing w with
  | nil => simp [ioCopyOps, chunksBody]
  | cons ch rest ih =>
    obtain ⟨s, rfl⟩ := hclean ch (by simp)
    have hrest : ∀ c ∈ rest, ∃ s2, c = Chunk.bytes s2 :=
      fun c hc => hclean c (List.mem_cons_of_mem _ hc)
    by_cases hs : s = ""
    · subst hs
      have hio : ioCopyOps (Chunk.bytes "" :: rest) = ioCopyOps rest := by
        simp [ioCopyOps]
      rw [hio]
      obtain ⟨h1, h2, h3⟩ := ih hrest w
      refine ⟨h1, h2, ?_⟩
      rw [h3]
      simp [chunksBody]
    · simp only [ioCopyOps, if_neg hs, List.singleton_append, List.foldl_cons]
      obtain ⟨h1, h2, h3⟩ := ih hrest (recStep w (WOp.write s))
      refine ⟨h1, h2, ?_⟩
      rw [h3]
      simp [recStep, chunksBody, String.append_assoc]

theorem foldl_recStep_httpError_proj (msg : String) (code : Nat) (w : Recorder) :
    ((httpErrorOps msg code).foldl recStep w).code =
      (if w.wroteHeader then w.code else code) ∧
    ((httpErrorOps msg code).foldl recStep w).body = w.body ++ (msg ++ "\n") := by
  by_cases hw : w.wroteHeader <;>
    simp [httpErrorOps, recStep, headerSet, headerDel, hw]

theorem objectInfoPairs_keys_nodup (ft : Nat → String) (info : ObjectInfo) :
    ((objectInfoPairs ft info).map Prod.fst).Nodup := by
  unfold objectInfoPairs
  rcases info with ⟨lm, cl, ct⟩
  cases lm <;> cases cl <;> cases ct <;> simp

theorem objectInfoPairs_lookup_lastModified (ft : Nat → String) (info : ObjectInfo) :
    (objectInfoPairs ft info).lookup "Last-Modified" = info.lastModified.map ft := by
  rcases info with ⟨lm, cl, ct⟩
  cases lm <;> cases cl <;> cases ct <;> rfl

theorem objectInfoPairs_lookup_contentLength (ft : Nat → String) (info : ObjectInfo) :
    (objectInfoPairs ft info).lookup "Content-Length"
      = info.contentLength.map toString := by
  rcases info with ⟨lm, cl, ct⟩
  cases lm <;> cases cl <;> cases ct <;> rfl

theorem objectInfoPairs_lookup_contentType (ft : Nat → String) (info : ObjectInfo) :
    (objectInfoPairs ft info).lookup "Content-Type" = info.contentType := by
  rcases info with ⟨lm, cl, ct⟩
  cases lm <;> cases cl <;> cases ct <;> rfl

theorem pipeline_download_success (ft : Nat → String) (info : ObjectInfo)
    (data : List Chunk) (hclean : ∀ ch ∈ data, ∃ s, ch = Chunk.bytes s) (rid : Nat) :
    pipelineResponse (objectInfoHeaderOps ft info ++ ioCopyOps data) rid =
      ⟨200, objectInfoPairs ft info, chunksBody data⟩ := by
  have h1 : runRecorder (objectInfoHeaderOps ft info ++ ioCopyOps data) =
      (ioCopyOps data).foldl recStep
        { Recorder.init with headers := copyHeaders [] (objectInfoPairs ft info) } := by
    unfold runRecorder objectInfoHeaderOps
    rw [List.foldl_append, foldl_recStep_setHeader_pairs]
    rfl
  have hcph : copyHeaders [] (objectInfoPairs ft info) = objectInfoPairs ft info :=
    copyHeaders_nil_self _ (objectInfoPairs_keys_nodup ft info)
  obtain ⟨hc, hh, hb⟩ := foldl_recStep_clean_writes data hclean
    { Recorder.init with headers := copyHeaders [] (objectInfoPairs ft info) }
  unfold pipelineResponse
  rw [h1]
  unfold InternalErrorRedacter
  rw [if_neg (by rw [hc]; simp [Recorder.init])]
  rw [hc, hh, hb]
  simp [Recorder.init, hcph]

/-- C5 as amended: a malformed If-Modified-Since header yields 400 with the
exact body; the `ErrNotModified` sentinel yields 304 with no body and no
headers; a successful download yields 200, a body that is the streamed data,
and each of the Last-Modified / Content-Length / Content-Type headers exactly
when the corresponding `ObjectInfo` field is present; a stream error before
any byte is written surfaces as 500; but a mid-stream error after bytes have
been written leaves the already-sent 200 status and appends the error text to
the truncated body (`http.Error` cannot rewrite a status that is already
written), so it is not surfaced as 500. -/
theorem download_C5 (parseTime : String → Option Nat) (formatTime : Nat → String)
    (get : GetOptions → GetResult) (ims : String) (rid : Nat) :
    (ims ≠ "" → parseTime ims = none →
      pipelineResponse (handleFileDownloadOps parseTime formatTime get ims) rid =
        ⟨400, errorHeaders, "invalid If-Modified-Since header" ++ "\n"⟩) ∧
    (handleDownload parseTime get ims = .error .notModified →
      pipelineResponse (handleFileDownloadOps parseTime formatTime get ims) rid =
        ⟨304, [], ""⟩) ∧
    (∀ data info, handleDownload parseTime get ims = .ok (data, info) →
      (∀ ch ∈ data, ∃ s, ch = Chunk.bytes s) →
      pipelineResponse (handleFileDownloadOps parseTime formatTime get ims) rid =
        ⟨200, objectInfoPairs formatTime info, chunksBody data⟩ ∧
      (objectInfoPairs formatTime info).lookup "Last-Modified"
        = info.lastModified.map formatTime ∧
      (objectInfoPairs formatTime info).lookup "Content-Length"
        = info.contentLength.map toString ∧
      (objectInfoPairs formatTime info).lookup "Content-Type" = info.contentType) ∧
    (∀ info m rest, handleDownload parseTime get ims = .ok (Chunk.ioError m :: rest, info) →
      (pipelineResponse (handleFileDownloadOps parseTime formatTime get ims) rid).status
        = 500) ∧
    (∀ info s m rest, handleDownload parseTime get ims =
        .ok (Chunk.bytes s :: Chunk.ioError m :: rest, info) → s ≠ "" →
      (pipelineResponse (handleFileDownloadOps parseTime formatTime get ims) rid).status
        = 200 ∧
      (pipelineResponse (handleFileDownloadOps parseTime formatTime get ims) rid).body
        = s ++ (m ++ "\n")) := by
  refine ⟨?_, ?_, ?_, ?_, ?_⟩
  · intro hims hpt
    have hdl : handleDownload parseTime get ims =
        .error (.coded ⟨400, "invalid If-Modified-Since header"⟩) := by
      unfold handleDownload
      rw [if_neg hims, hpt]
    have hops : handleFileDownloadOps parseTime formatTime get ims =
        lerrToHTTPOps ⟨400, "invalid If-Modified-Since header"⟩ := by
      unfold handleFileDownloadOps
      rw [hdl]
    rw [hops, pipeline_lerr _ _ (by decide)]
  · intro hnm
    have hops : handleFileDownloadOps parseTime formatTime get ims =
        [WOp.writeHeader 304] := by
      unfold handleFileDownloadOps
      rw [hnm]
    rw [hops]
    simp [pipelineResponse, runRecorder, recStep, InternalErrorRedacter, copyHeaders,
      Recorder.init]
  · intro data info hok hclean
    have hops : handleFileDownloadOps parseTime formatTime get ims =
        objectInfoHeaderOps formatTime info ++ ioCopyOps data := by
      unfold handleFileDownloadOps
      rw [hok]
    rw [hops]
    exact ⟨pipeline_download_success formatTime info data hclean rid,
      objectInfoPairs_lookup_lastModified formatTime info,
      objectInfoPairs_lookup_contentLength formatTime info,
      objectInfoPairs_lookup_contentType formatTime info⟩
  · intro info m rest hok
    have hops : handleFileDownloadOps parseTime formatTime get ims =
        objectInfoHeaderOps formatTime info ++ httpErrorOps m 500 := by
      unfold handleFileDownloadOps
      rw [hok]
      rfl
    have hcode : (runRecorder (handleFileDownloadOps parseTime formatTime get ims)).code
        = 500 := by
      rw [hops]
      unfold runRecorder objectInfoHeaderOps
      rw [List.foldl_append, foldl_recStep_setHeader_pairs,
        (foldl_recStep_httpError_proj m 500 _).1]
      simp [Recorder.init]
    unfold pipelineResponse InternalErrorRedacter
    rw [if_pos hcode]
  · intro info s m rest hok hs
    have hops : handleFileDownloadOps parseTime formatTime get ims =
        objectInfoHeaderOps formatTime info ++ (WOp.write s :: httpErrorOps m 500) := by
      unfold handleFileDownloadOps
      rw [hok]
      simp only [ioCopyOps, if_neg hs, List.singleton_append]
    have hrec : (runRecorder (handleFileDownloadOps parseTime formatTime get ims)).code
          = 200 ∧
        (runRecorder (handleFileDownloadOps parseTime formatTime get ims)).body
          = s ++ (m ++ "\n") := by
      rw [hops]
      unfold runRecorder objectInfoHeaderOps
      rw [List.foldl_append, foldl_recStep_setHeader_pairs, List.foldl_cons]
      obtain ⟨hc, hb⟩ := foldl_recStep_httpError_proj m 500
        (recStep { Recorder.init with
          headers := copyHeaders Recorder.init.headers (objectInfoPairs formatTime info) }
          (WOp.write s))
      rw [hc, hb]
      constructor
      · rfl
      · simp [recStep, Recorder.init]
    unfold pipelineResponse InternalErrorRedacter
    rw [if_neg (by rw [hrec.1]; simp)]
    exact ⟨hrec.1, hrec.2⟩

/-- Counterexample to C5 as stated: for a download whose stream yields the
bytes `he` and then a read error, the final response has status 200, not
500 — the error text is merely appended to the truncated body. -/
theorem download_C5_counterexample :
    pipelineResponse (handleFileDownloadOps (fun _ => none) (fun _ => "")
        (fun _ => .success [.bytes "he", .ioError "boom"] ⟨none, none, none⟩) "") 0 =
      ⟨200, errorHeaders, "heboom\n"⟩ ∧
    (pipelineResponse (handleFileDownloadOps (fun _ => none) (fun _ => "")
        (fun _ => .success [.bytes "he", .ioError "boom"] ⟨none, none, none⟩) "") 0).status
      ≠ 500 := by
  refine ⟨by decide, by decide⟩

/-- Witness for C5 (amended) at concrete inputs: the `NotModified` sentinel
maps to a bodiless 304, and a malformed If-Modified-Since maps to the 400. -/
theorem download_C5_witness :
    pipelineResponse (handleFileDownloadOps (fun _ => none) (fun _ => "")
        (fun _ => .notModified) "") 0 = ⟨304, [], ""⟩ ∧
    pipelineResponse (handleFileDownloadOps (fun _ => none) (fun _ => "")
        (fun _ => .notModified) "garbage") 0 =
      ⟨400, errorHeaders, "invalid If-Modified-Since header" ++ "\n"⟩ := by
  constructor
  · exact (download_C5 (fun _ => none) (fun _ => "") (fun _ => .notModified) "" 0).2.1 rfl
  · exact (download_C5 (fun _ => none) (fun _ => "") (fun _ => .notModified)
      "garbage" 0).1 (by decide) rfl

end FileButler
